import Mathlib

/-!
Verification of the fchatlib protocol engine against its design document.

The development shallowly embeds the TypeScript sources:
  - src/CommandHandlerHelper.ts   (plugin host: load / unload / persist)
  - src/FChatLib.ts               (listener registry, outbound throttle,
                                   channel/user state store, sendCommand,
                                   inbound frame dispatcher)
JavaScript strings are Lean `String`s; JS arrays are Lean `List`s; JS objects
used as string-keyed records are association lists with unique keys.  JS
`Array.prototype.indexOf`, `findIndex` and `splice` are modelled by
`jsIndexOf` / `jsFindIndex` / `jsSpliceRemove` below, reproducing their
semantics (including a negative `start` counting from the end of the array).
`JSON.parse` is modelled by `jsonParse`, a parser for the JSON fragment the
engine exchanges (strings, integers, booleans, null, arrays, objects); inputs
outside JSON syntax yield `none`, mirroring the `SyntaxError` thrown by the
JS builtin.
-/

/-- Whitespace recognised by the model of JS `String.prototype.trim` and by
the JSON parser (space, tab, newline, carriage return). -/
def isJsWs (c : Char) : Bool :=
  c == ' ' || c == '\t' || c == '\n' || c == '\r'

/-- Model of JS `String.prototype.trim`. -/
def jsTrim (s : String) : String :=
  ⟨((s.data.dropWhile isJsWs).reverse.dropWhile isJsWs).reverse⟩

/-- Model of JS `String.prototype.toLowerCase` (ASCII range suffices for the
identifiers the engine compares). -/
def jsToLower (s : String) : String :=
  ⟨s.data.map Char.toLower⟩

/-- Model of JS `Array.prototype.indexOf`: first index of `x`, or `-1`. -/
def jsIndexOf {α : Type} [BEq α] : List α → α → Int
  | [], _ => -1
  | a :: t, x =>
    if a == x then 0
    else
      let r := jsIndexOf t x
      if r == -1 then -1 else r + 1

/-- Model of JS `Array.prototype.findIndex`: first index satisfying `p`, or `-1`. -/
def jsFindIndex {α : Type} : List α → (α → Bool) → Int
  | [], _ => -1
  | a :: t, p =>
    if p a then 0
    else
      let r := jsFindIndex t p
      if r == -1 then -1 else r + 1

/-- Model of JS `Array.prototype.splice(start, deleteCount)` restricted to
the removal use (the engine never inserts with splice).  A negative `start`
counts from the end of the array and is clamped at `0`, exactly as in JS. -/
def jsSpliceRemove {α : Type} (l : List α) (start : Int) (deleteCount : Nat) : List α :=
  let len := l.length
  let actualStart : Nat :=
    if start < 0 then ((len : Int) + start).toNat else min start.toNat len
  l.take actualStart ++ l.drop (actualStart + deleteCount)

/-- Lookup in a string-keyed record (JS object) modelled as an assoc list. -/
def alookup {α : Type} : List (String × α) → String → Option α
  | [], _ => none
  | (k, v) :: rest, key => if k == key then some v else alookup rest key

/-- Assignment `record[key] = v` on a string-keyed record: replaces the
binding when the key exists, appends it otherwise. -/
def setEntry {α : Type} : List (String × α) → String → α → List (String × α)
  | [], key, v => [(key, v)]
  | (k, w) :: rest, key, v =>
    if k == key then (k, v) :: rest else (k, w) :: setEntry rest key v

/-- Reference recursion equal to the `indexOf` / `splice` removal idiom the
engine uses: drop the first occurrence of `c`, keep everything else. -/
def removeFirst {α : Type} [BEq α] : List α → α → List α
  | [], _ => []
  | h :: t, c => if h == c then t else h :: removeFirst t c

/-- The dedup-push idiom of the roster handlers: `indexOf === -1` then
`push`. -/
def pushIfAbsent (l : List String) (u : String) : List String :=
  if jsIndexOf l u == -1 then l ++ [u] else l

/-- Duplicate-freedom of a JS array of identities, as a boolean. -/
def listNodup : List String → Bool
  | [] => true
  | h :: t => !(t.contains h) && listNodup t

/-- JSON values, as produced by `JSON.parse` (numbers restricted to the
integers, which covers every payload the engine exchanges). -/
inductive Json where
  | str : String → Json
  | num : Int → Json
  | bool : Bool → Json
  | null : Json
  | arr : List Json → Json
  | obj : List (String × Json) → Json

/-- JS truthiness of a possibly-`undefined` JSON value (`none` plays the role
of `undefined`): empty string, `0`, `false`, `null` and `undefined` are
falsy, everything else is truthy. -/
def jsTruthy : Option Json → Bool
  | none => false
  | some (Json.str s) => !(s == "")
  | some (Json.num n) => !(n == 0)
  | some (Json.bool b) => b
  | some Json.null => false
  | some (Json.arr _) => true
  | some (Json.obj _) => true

def quoteChar : Char := Char.ofNat 34

def backslashChar : Char := Char.ofNat 92

def lbraceChar : Char := Char.ofNat 123

def rbraceChar : Char := Char.ofNat 125

def lbrackChar : Char := Char.ofNat 91

def rbrackChar : Char := Char.ofNat 93

/-- Skip JSON whitespace. -/
def skipWs : List Char → List Char
  | [] => []
  | c :: cs => if isJsWs c then skipWs cs else c :: cs

/-- Parse the body of a JSON string literal after its opening quote,
returning the decoded characters and the remainder after the closing quote.
Escapes cover the forms the engine exchanges. -/
def parseStringBody : List Char → Option (List Char × List Char)
  | [] => none
  | c :: cs =>
    if c == quoteChar then some ([], cs)
    else if c == backslashChar then
      match cs with
      | [] => none
      | e :: cs2 =>
        let decoded : Option Char :=
          if e == quoteChar then some quoteChar
          else if e == backslashChar then some backslashChar
          else if e == 'n' then some '\n'
          else if e == 't' then some '\t'
          else if e == 'r' then some '\r'
          else if e == '/' then some '/'
          else none
        match decoded with
        | none => none
        | some d =>
          match parseStringBody cs2 with
          | none => none
          | some (s, r) => some (d :: s, r)
    else
      match parseStringBody cs with
      | none => none
      | some (s, r) => some (c :: s, r)

/-- Greedily read decimal digits. -/
def spanDigits : List Char → (List Char × List Char)
  | [] => ([], [])
  | c :: cs =>
    if c.isDigit then
      let (d, r) := spanDigits cs
      (c :: d, r)
    else ([], c :: cs)

/-- Digits to a natural number. -/
def digitsToNat (l : List Char) : Nat :=
  l.foldl (fun acc c => acc * 10 + (c.toNat - 48)) 0

mutual

/-- Fuel-driven JSON value parser (fuel strictly exceeds the nesting the
input can produce, so the fuel never runs out on `jsonParse` inputs). -/
def parseJsonValue : Nat → List Char → Option (Json × List Char)
  | 0, _ => none
  | _ + 1, [] => none
  | fuel + 1, c :: cs =>
    if c == quoteChar then
      match parseStringBody cs with
      | none => none
      | some (s, r) => some (Json.str ⟨s⟩, r)
    else if c == lbraceChar then
      match parseJsonMembers fuel (skipWs cs) true with
      | none => none
      | some (fields, r) => some (Json.obj fields, r)
    else if c == lbrackChar then
      match parseJsonElements fuel (skipWs cs) true with
      | none => none
      | some (elts, r) => some (Json.arr elts, r)
    else if c == 't' then
      match cs with
      | 'r' :: 'u' :: 'e' :: r => some (Json.bool true, r)
      | _ => none
    else if c == 'f' then
      match cs with
      | 'a' :: 'l' :: 's' :: 'e' :: r => some (Json.bool false, r)
      | _ => none
    else if c == 'n' then
      match cs with
      | 'u' :: 'l' :: 'l' :: r => some (Json.null, r)
      | _ => none
    else if c == '-' then
      match spanDigits cs with
      | ([], _) => none
      | (ds, r) => some (Json.num (-(digitsToNat ds : Int)), r)
    else if c.isDigit then
      match spanDigits (c :: cs) with
      | ([], _) => none
      | (ds, r) => some (Json.num (digitsToNat ds : Int), r)
    else none

/-- Parse the members of a JSON object after its opening brace; `first`
records whether no member has been consumed yet. -/
def parseJsonMembers : Nat → List Char → Bool → Option (List (String × Json) × List Char)
  | 0, _, _ => none
  | _ + 1, [], _ => none
  | fuel + 1, c :: cs, first =>
    if c == rbraceChar then some ([], cs)
    else if first || c == ',' then
      let rest := if first then c :: cs else skipWs cs
      match rest with
      | [] => none
      | q :: qs =>
        if q == quoteChar then
          match parseStringBody qs with
          | none => none
          | some (key, r1) =>
            match skipWs r1 with
            | ':' :: r2 =>
              match parseJsonValue fuel (skipWs r2) with
              | none => none
              | some (v, r3) =>
                match parseJsonMembers fuel (skipWs r3) false with
                | none => none
                | some (fields, r4) => some ((⟨key⟩, v) :: fields, r4)
            | _ => none
        else none
    else none

/-- Parse the elements of a JSON array after its opening bracket. -/
def parseJsonElements : Nat → List Char → Bool → Option (List Json × List Char)
  | 0, _, _ => none
  | _ + 1, [], _ => none
  | fuel + 1, c :: cs, first =>
    if c == rbrackChar then some ([], cs)
    else if first || c == ',' then
      let rest := if first then c :: cs else skipWs cs
      match parseJsonValue fuel rest with
      | none => none
      | some (v, r1) =>
        match parseJsonElements fuel (skipWs r1) false with
        | none => none
        | some (elts, r2) => some (v :: elts, r2)
    else none

end

/-- Model of `JSON.parse`: parse one JSON value and require only whitespace
after it; `none` models the thrown `SyntaxError`. -/
def jsonParse (s : String) : Option Json :=
  match parseJsonValue (2 * s.length + 8) (skipWs s.data) with
  | none => none
  | some (j, rest) => if skipWs rest == [] then some j else none

mutual

/-- Model of `JSON.stringify` on the `Json` fragment. -/
def jsonStringify : Json → String
  | Json.str s => ⟨quoteChar :: s.data ++ [quoteChar]⟩
  | Json.num n => toString n
  | Json.bool b => if b then "true" else "false"
  | Json.null => "null"
  | Json.arr elts => ⟨lbrackChar :: (stringifyElements elts).data ++ [rbrackChar]⟩
  | Json.obj fields => ⟨lbraceChar :: (stringifyMembers fields).data ++ [rbraceChar]⟩

def stringifyElements : List Json → String
  | [] => ""
  | [j] => jsonStringify j
  | j :: rest => jsonStringify j ++ "," ++ stringifyElements rest

def stringifyMembers : List (String × Json) → String
  | [] => ""
  | [(k, v)] => ⟨quoteChar :: k.data ++ [quoteChar]⟩ ++ ":" ++ jsonStringify v
  | (k, v) :: rest =>
      ⟨quoteChar :: k.data ++ [quoteChar]⟩ ++ ":" ++ jsonStringify v ++ "," ++ stringifyMembers rest

end

/-!
Validator model.  The design document treats the schema library as the
external Validator capability: `validate(schema, payload) -> ok | issues`.
The server-command schemas live in FchatServerCommands.ts, which is not part
of the sources under review, so the server registry below is modelled from
the spec (and from the zod object schemas an earlier in-repo variant of
FChatLib.ts declares inline); the client-command schemas ARE among the
sources (the fchatClientCommands document) and are embedded from them.
-/

/-- Structured validation issue: field path, message, code (the shape the
engine logs per issue). -/
structure Issue where
  path : String
  message : String
  code : String
deriving DecidableEq

/-- Field requirement inside an object schema. -/
inductive FieldSpec where
  | strField : String → FieldSpec
  | nonEmptyStrField : String → FieldSpec
  | anyField : String → FieldSpec

def fieldSpecName : FieldSpec → String
  | FieldSpec.strField n => n
  | FieldSpec.nonEmptyStrField n => n
  | FieldSpec.anyField n => n

def getField (fields : List (String × Json)) (k : String) : Option Json :=
  alookup fields k

/-- Issues produced by checking one required field of an object payload. -/
def checkField (fields : List (String × Json)) : FieldSpec → List Issue
  | FieldSpec.strField n =>
    match getField fields n with
    | some (Json.str _) => []
    | some _ => [⟨n, "Expected string", "invalid_type"⟩]
    | none => [⟨n, "Required", "invalid_type"⟩]
  | FieldSpec.nonEmptyStrField n =>
    match getField fields n with
    | some (Json.str s) => if s == "" then [⟨n, "Too short", "too_small"⟩] else []
    | some _ => [⟨n, "Expected string", "invalid_type"⟩]
    | none => [⟨n, "Required", "invalid_type"⟩]
  | FieldSpec.anyField n =>
    match getField fields n with
    | some _ => []
    | none => [⟨n, "Required", "invalid_type"⟩]

/-- Validator result on a possibly-`undefined` payload: typed value or the
structured issue list (the `safeParse` interface). -/
structure Schema where
  safeParse : Option Json → Except (List Issue) Json

/-- Modelled from the spec: an object schema with required fields, the shape
every command schema of this engine takes (the Validator is external; zod
object schemas from the in-repo earlier variant are the evidence for the
field lists used below).  On success the payload itself is the typed
value. -/
def objectSchema (specs : List FieldSpec) : Schema :=
  ⟨fun payload =>
    match payload with
    | none => Except.error [⟨"", "Required", "invalid_type"⟩]
    | some (Json.obj fields) =>
      let issues := (specs.map (checkField fields)).flatten
      if issues.isEmpty then Except.ok (Json.obj fields) else Except.error issues
    | some _ => Except.error [⟨"", "Expected object", "invalid_type"⟩]⟩

def exceptIsOk {ε α : Type} : Except ε α → Bool
  | Except.ok _ => true
  | Except.error _ => false

/-- Modelled from the spec: schema of the status-changed server command
(verb STA) — required string fields status, character, statusmsg, matching
the StatusEventSchema declared by the earlier in-repo variant. -/
def staSchema : Schema :=
  objectSchema [FieldSpec.strField ("status"), FieldSpec.strField ("character"),
    FieldSpec.strField ("statusmsg")]

/-- Modelled from the spec: schema of the character-came-online server
command (verb NLN) — required string field character, matching the
OnlineEventSchema declared by the earlier in-repo variant. -/
def nlnSchema : Schema :=
  objectSchema [FieldSpec.strField ("character")]

/-- Modelled from the spec: schema of the character-went-offline server
command (verb FLN). -/
def flnSchema : Schema :=
  objectSchema [FieldSpec.strField ("character")]

/-- Modelled from the spec: schema of the chat-message server command
(verb MSG). -/
def msgSchema : Schema :=
  objectSchema [FieldSpec.strField ("character"), FieldSpec.strField ("message"),
    FieldSpec.strField ("channel")]

/-- Modelled from the spec: schema of the initial-channel-data server
command (verb ICH): users array, channel, mode. -/
def ichSchema : Schema :=
  objectSchema [FieldSpec.anyField ("users"), FieldSpec.strField ("channel"),
    FieldSpec.strField ("mode")]

/-- Modelled from the spec: schema of the bulk online-list server command
(verb LIS): characters array of 4-tuples. -/
def lisSchema : Schema :=
  objectSchema [FieldSpec.anyField ("characters")]

/-- Modelled from the spec: schema of the channel-join server command
(verb JCH): title, channel, character object. -/
def jchServerSchema : Schema :=
  objectSchema [FieldSpec.strField ("title"), FieldSpec.strField ("channel"),
    FieldSpec.anyField ("character")]

/-- Modelled from the spec: schema of the channel-leave server command
(verb LCH). -/
def lchSchema : Schema :=
  objectSchema [FieldSpec.strField ("channel"), FieldSpec.strField ("character")]

/-- Modelled from the spec: schema of the operator-list server command
(verb COL). -/
def colSchema : Schema :=
  objectSchema [FieldSpec.anyField ("oplist"), FieldSpec.strField ("channel")]

/-- Modelled from the spec: schema of the operator-added server command
(verb COA). -/
def coaSchema : Schema :=
  objectSchema [FieldSpec.strField ("channel"), FieldSpec.strField ("character")]

/-- Modelled from the spec: schema of the operator-removed server command
(verb COR). -/
def corSchema : Schema :=
  objectSchema [FieldSpec.strField ("channel"), FieldSpec.strField ("character")]

/-- Modelled from the spec: schema of the server-variables command
(verb VAR). -/
def varSchema : Schema :=
  objectSchema [FieldSpec.strField ("variable"), FieldSpec.anyField ("value")]

/-- Modelled from the spec: the server CommandRegistry — verb to schema.  In
the source the command-type identifiers are the verb strings themselves
(`getCommandObjectForCommand(command as FChatServerCommandType)`), so the
registry is keyed directly by verb.  FchatServerCommands.ts is not among the
sources under review; the verb list follows the spec (NLN, STA, MSG named
explicitly) and the F-chat protocol commands the engine registers listeners
for in `connect()`. -/
def serverCommandRegistry : List (String × Schema) :=
  [("NLN", nlnSchema), ("STA", staSchema), ("FLN", flnSchema), ("MSG", msgSchema),
   ("ICH", ichSchema), ("LIS", lisSchema), ("JCH", jchServerSchema), ("LCH", lchSchema),
   ("COL", colSchema), ("COA", coaSchema), ("COR", corSchema), ("VAR", varSchema)]

/-!
PluginHost — CommandHandlerHelper.ts.

`IPlugin` is `{ name, instanciatedPlugin }`; the instantiated handle is an
opaque runtime object irrelevant to list membership and persistence, so the
embedding keeps the name (the handle never influences the control flow under
verification: every comparison in the source is on `.name`).

The dynamic `new RequireClean(path)` + `new customPlugin[name](...)` +
reflection step of `internalLoadPlugin` is external input; it is modelled by
the `loadResult` argument: `none` is the thrown-exception path (any of the
three catch branches, all of which only send messages), `some cmds` is a
successful instantiation whose reflective command discovery
(`internalGetAllFuncs`) returned `cmds`.
-/

structure IPlugin where
  name : String
deriving DecidableEq

/-- State touched by the plugin host: the per-channel `pluginsLoaded` list of
the CommandHandler, the engine-wide `channels` record, and the rooms-config
file `updateRoomsConfig` writes (channel name to plugin-name list). -/
structure PluginHostState where
  pluginsLoaded : List IPlugin
  channels : List (String × List IPlugin)
  savedFile : List (String × List String)
deriving DecidableEq

/-- Source `internalUpdatePluginsFile`: store `pluginsLoaded` under the
channel name in `channels`, then `updateRoomsConfig` persists the
name-only mapping of every channel. -/
def internalUpdatePluginsFile (st : PluginHostState) (channelName : String) : PluginHostState :=
  let channels := setEntry st.channels channelName st.pluginsLoaded
  { st with
    channels := channels
    savedFile := channels.map (fun p => (p.1, p.2.map IPlugin.name)) }

/-- Source `internalUnloadPlugin`, verbatim: the guard is
`findIndex(...) === -1` and the body splices at a recomputed
`findIndex(...)` (necessarily `-1` under the guard) and persists. -/
def internalUnloadPlugin (st : PluginHostState) (channelName pluginName : String) :
    PluginHostState :=
  if jsFindIndex st.pluginsLoaded (fun x => x.name == pluginName) == -1 then
    let pluginsLoaded :=
      jsSpliceRemove st.pluginsLoaded
        (jsFindIndex st.pluginsLoaded (fun x => x.name == pluginName)) 1
    internalUpdatePluginsFile { st with pluginsLoaded := pluginsLoaded } channelName
  else st

/-- Source `strAddedCommands` accumulation: concatenate `!cmd, ` per
discovered command, then `substr(0, length - 2)` trims the trailing
separator. -/
def strAddedCommands (cmds : List String) : String :=
  let s := cmds.foldl (fun acc c => acc ++ "!" ++ c ++ ", ") ""
  ⟨(s.data.take (s.length - 2))⟩

/-- Source `internalLoadPlugin`: drop an already-loaded plugin of the same
name, then instantiate; on success with a non-empty command list, push the
PluginRef and persist; otherwise (no commands, or any catch branch) only
messages are sent and the list is left as it stands. -/
def internalLoadPlugin (st : PluginHostState) (channelName pluginName : String)
    (loadResult : Option (List String)) : PluginHostState :=
  let idx := jsFindIndex st.pluginsLoaded (fun x => x.name == pluginName)
  let st0 :=
    if !(idx == -1) then { st with pluginsLoaded := jsSpliceRemove st.pluginsLoaded idx 1 }
    else st
  match loadResult with
  | none => st0
  | some cmds =>
    if strAddedCommands cmds == "" then st0
    else
      internalUpdatePluginsFile
        { st0 with pluginsLoaded := st0.pluginsLoaded ++ [⟨pluginName⟩] } channelName

/-!
Listener registry — FChatLib.ts `addCommandListener` / `removeCommandListener`.

`commandListeners` is a record built with one (initially empty) listener
array per known server command type; a lookup with an unknown identifier is
`undefined`, which is the only falsy case of the `!listeners` guard, so the
methods throw exactly for unknown identifiers.  Listener function references
are modelled by numeric identities (JS `indexOf` on functions compares by
reference).  The thrown `Error` is modelled with `Except.error` carrying the
message.
-/

/-- Modelled from the spec: the known server command types
(`fchatServerCommandTypes` of the missing FchatServerCommands.ts); the
values are the wire verbs, covering every type the sources reference. -/
def fchatServerCommandTypes : List String :=
  ["MSG", "CON", "CIU", "VAR", "ICH", "FLN", "LCH", "JCH", "LIS", "STA",
   "COL", "COA", "COR", "NLN", "ERR", "SYS", "BRO", "RLL", "PRI", "PIN"]

/-- The `commandListeners` record as initialised in the source: one empty
list per known command type. -/
def initCommandListeners : List (String × List Nat) :=
  fchatServerCommandTypes.map (fun c => (c, []))

/-- Source `addCommandListener`: throw on an unknown command type, append the
listener otherwise. -/
def addCommandListener (listeners : List (String × List Nat)) (command : String) (fn : Nat) :
    Except String (List (String × List Nat)) :=
  match alookup listeners command with
  | none => Except.error ("Command " ++ command ++ " not found")
  | some l => Except.ok (setEntry listeners command (l ++ [fn]))

/-- Source `removeCommandListener`: throw on an unknown command type;
otherwise `indexOf` + `splice` drops the first matching reference, leaving
the list untouched when the reference is absent. -/
def removeCommandListener (listeners : List (String × List Nat)) (command : String) (fn : Nat) :
    Except String (List (String × List Nat)) :=
  match alookup listeners command with
  | none => Except.error ("Command " ++ command ++ " not found")
  | some l =>
    let index := jsIndexOf l fn
    if !(index == -1) then
      Except.ok (setEntry listeners command (jsSpliceRemove l index 1))
    else Except.ok listeners

/-!
OutboundThrottler — FChatLib.ts `sendData`.

Each call increments `commandsInQueue`, reads the integer-second clock, and
if less than `floodLimit` has elapsed since `lastTimeCommandReceived`,
suspends for `commandsInQueue * floodLimit - elapsed` seconds before
dispatching.  For N calls issued back-to-back (no time elapsed, shared
counters visible at call time), the i-th caller observes
`commandsInQueue = i`.  Times are rationals: the JS number arithmetic
involved is exact on these values.
-/

/-- Source wait computation of `sendData`: the suspension (in seconds)
observed by a caller that sees queue depth `commandsInQueue` at time
`currentTime` with the given `lastTimeCommandReceived` and `floodLimit`. -/
def sendDataWait (commandsInQueue : Nat) (currentTime lastTimeCommandReceived floodLimit : ℚ) :
    ℚ :=
  if currentTime - lastTimeCommandReceived < floodLimit then
    (commandsInQueue : ℚ) * floodLimit - (currentTime - lastTimeCommandReceived)
  else 0

/-- Scheduled dispatch time of the i-th of N back-to-back callers entering at
time `t` with `lastTimeCommandReceived = t` (no elapsed time): entry time
plus the wait that caller computes. -/
def scheduledDispatchTime (t floodLimit : ℚ) (i : Nat) : ℚ :=
  t + sendDataWait i t t floodLimit

/-!
ChannelStateStore — FChatLib.ts user/roster/operator handlers.

`usersInChannel` and `chatOPsInChannel` are records of identity arrays keyed
by lowercased channel name; `users` is the global user directory, storing
per character the 4-tuple `[name, gender, status, statusMessage]` (indices
0..3), rendered here as the `UserRow` structure.  Event argument shapes
follow the validated command payloads.
-/

structure UserRow where
  name : String
  gender : String
  status : String
  statusMessage : String
deriving DecidableEq

structure InitialChannelDataArgs where
  channel : String
  users : List String
deriving DecidableEq

structure JoinedArgs where
  channel : String
  identity : String
  title : String
deriving DecidableEq

structure LeftArgs where
  channel : String
  character : String
deriving DecidableEq

structure OfflineArgs where
  character : String
deriving DecidableEq

structure OpListArgs where
  channel : String
  oplist : List String
deriving DecidableEq

structure OpArgs where
  channel : String
  character : String
deriving DecidableEq

structure OnlineListArgs where
  characters : List UserRow
deriving DecidableEq

/-- Optional event fields of the status-changed / went-offline payloads as
`onChangeUpdateUserState` receives them; `none` models an absent field. -/
structure StatusEventArgs where
  identity : Option String
  character : Option String
  gender : Option String
  status : Option String
  statusmsg : Option String
deriving DecidableEq

/-- JS truthiness of an optional string field (absent and empty are falsy). -/
def strTruthy : Option String → Bool
  | none => false
  | some s => !(s == "")

/-- Source `addUsersToList` (initial channel data): create the roster if
missing, then push each identity absent from it. -/
def addUsersToList (uic : List (String × List String)) (args : InitialChannelDataArgs) :
    List (String × List String) :=
  let channel := jsToLower args.channel
  let cur := (alookup uic channel).getD []
  let cur := args.users.foldl pushIfAbsent cur
  setEntry uic channel cur

/-- Source `addSingleUserToList`: create the roster if missing, push the
identity if absent. -/
def addSingleUserToList (uic : List (String × List String)) (args : JoinedArgs) :
    List (String × List String) :=
  let channel := jsToLower args.channel
  let cur := (alookup uic channel).getD []
  let cur := pushIfAbsent cur args.identity
  setEntry uic channel cur

/-- Source `removeUserFromList`: return unchanged when the channel has no
roster; otherwise `indexOf` + `splice` the identity out once. -/
def removeUserFromList (uic : List (String × List String)) (args : LeftArgs) :
    List (String × List String) :=
  let channel := jsToLower args.channel
  match alookup uic channel with
  | none => uic
  | some cur =>
    if !(jsIndexOf cur args.character == -1) then
      setEntry uic channel (jsSpliceRemove cur (jsIndexOf cur args.character) 1)
    else uic

/-- Source `removeUserFromChannels` (went offline): for every channel,
`indexOf` + `splice` the identity out once. -/
def removeUserFromChannels (uic : List (String × List String)) (args : OfflineArgs) :
    List (String × List String) :=
  uic.map (fun p =>
    if !(jsIndexOf p.2 args.character == -1) then
      (p.1, jsSpliceRemove p.2 (jsIndexOf p.2 args.character) 1)
    else p)

/-- Source `saveChannelNames`: record the display title under the lowercased
channel key. -/
def saveChannelNames (names : List (String × String)) (args : JoinedArgs) :
    List (String × String) :=
  setEntry names (jsToLower args.channel) args.title

/-- Source `addChatOPsToList`: create the operator list if missing, then push
each truthy absent entry. -/
def addChatOPsToList (ops : List (String × List String)) (args : OpListArgs) :
    List (String × List String) :=
  let channel := jsToLower args.channel
  let cur := (alookup ops channel).getD []
  let cur := args.oplist.foldl
    (fun l op => if !(op == "") then pushIfAbsent l op else l) cur
  setEntry ops channel cur

/-- Source `addChatOPToList`. -/
def addChatOPToList (ops : List (String × List String)) (args : OpArgs) :
    List (String × List String) :=
  let channel := jsToLower args.channel
  let cur := (alookup ops channel).getD []
  let cur := pushIfAbsent cur args.character
  setEntry ops channel cur

/-- Source `removeChatOPFromList`. -/
def removeChatOPFromList (ops : List (String × List String)) (args : OpArgs) :
    List (String × List String) :=
  let channel := jsToLower args.channel
  match alookup ops channel with
  | none => ops
  | some cur =>
    if !(jsIndexOf cur args.character == -1) then
      setEntry ops channel (jsSpliceRemove cur (jsIndexOf cur args.character) 1)
    else ops

/-- Source `addUserListToGlobalState`: store each 4-tuple of the bulk online
list under its name (index 0), overwriting wholesale. -/
def addUserListToGlobalState (users : List (String × UserRow)) (args : OnlineListArgs) :
    List (String × UserRow) :=
  args.characters.foldl (fun us row => setEntry us row.name row) users

/-- The character the event is about, per the source assignment chain of
`onChangeUpdateUserState` (`identity` first, `character` overriding). -/
def resolveCharacter (args : StatusEventArgs) : String :=
  if strTruthy args.character then (args.character.getD "")
  else if strTruthy args.identity then (args.identity.getD "")
  else ""

/-- Source `onChangeUpdateUserState` (current variant, the one registered in
`connect()`): resolve the character, bail out when empty; default a new
entry to `[character, "None", "online", ""]` (the `??=`), then overwrite
exactly the fields whose event value is non-empty. -/
def onChangeUpdateUserState (users : List (String × UserRow)) (args : StatusEventArgs) :
    List (String × UserRow) :=
  let character := resolveCharacter args
  let gender := if strTruthy args.gender then (args.gender.getD "") else ""
  let status := if strTruthy args.status then (args.status.getD "") else ""
  let statusmsg := if strTruthy args.statusmsg then (args.statusmsg.getD "") else ""
  if character == "" then users
  else
    let user := (alookup users character).getD ⟨character, "None", "online", ""⟩
    let user := if !(gender == "") then { user with gender := gender } else user
    let user := if !(status == "") then { user with status := status } else user
    let user := if !(statusmsg == "") then { user with statusMessage := statusmsg } else user
    setEntry users character user

/-!
Permission reads — FChatLib.ts `getChatOPList`, `isUserChatOP`,
`isUserMaster`.  Only the configuration fields these reads consult are
modelled.
-/

structure Config where
  master : String
deriving DecidableEq

/-- Source `getChatOPList`: empty when the channel has no operator list. -/
def getChatOPList (ops : List (String × List String)) (channel : String) : List String :=
  let sanitizedChannel := jsToLower channel
  match alookup ops sanitizedChannel with
  | none => []
  | some chatOPs => chatOPs

/-- Source `isUserChatOP`: roster membership via `indexOf`, or strict `===`
equality with the configured master. -/
def isUserChatOP (cfg : Config) (ops : List (String × List String))
    (username channel : String) : Bool :=
  let sanitizedChannel := jsToLower channel
  !(jsIndexOf (getChatOPList ops sanitizedChannel) username == -1) || username == cfg.master

/-- Source `isUserMaster`: lowercase both sides and compare. -/
def isUserMaster (cfg : Config) (username : String) : Bool :=
  jsToLower username == jsToLower cfg.master

/-!
Outbound `sendCommand` — FChatLib.ts.

`getClientCommand(command).schema` looks the command up in
`commandTypeToCommandObjectMap` of the fchatClientCommands document (among
the sources under review).  The outcome type records what the call did: the
boolean it returned, the issues it logged, and the transport write it
performed, are projections of the outcome.
-/

inductive SendOutcome where
  | commandNotFound
  | validationFailed : List Issue → SendOutcome
  | socketNotReady : String → SendOutcome
  | sent : String → SendOutcome
deriving DecidableEq

/-- Source `sendCommand`: missing schema → log + false; validation failure →
log each issue + false; socket not open → log + false; otherwise write
`command ++ " " ++ JSON.stringify(data)` to the transport and return true. -/
def sendCommand (registry : List (String × Schema)) (wsOpen : Bool) (command : String)
    (object : Option Json) : SendOutcome :=
  match alookup registry command with
  | none => SendOutcome.commandNotFound
  | some schema =>
    match schema.safeParse object with
    | Except.error issues => SendOutcome.validationFailed issues
    | Except.ok data =>
      let message := command ++ " " ++ jsonStringify data
      if !wsOpen then SendOutcome.socketNotReady message else SendOutcome.sent message

/-- The boolean `sendCommand` returns. -/
def sendCommandReturn : SendOutcome → Bool
  | SendOutcome.sent _ => true
  | _ => false

/-- The transport write `sendCommand` performs (`ws.send`), if any. -/
def sendCommandWrite : SendOutcome → Option String
  | SendOutcome.sent m => some m
  | _ => none

/-- The validation issues `sendCommand` logs (one `errorLog` per issue). -/
def sendCommandLoggedIssues : SendOutcome → List Issue
  | SendOutcome.validationFailed issues => issues
  | _ => []

/-- Source `JoinChannelCommand.schema` (fchatClientCommands):
`z.object({ channel: channelSchema })`, where `channelSchema` of
commonSchemas.ts is a plain `z.string()` — any string is accepted, in
particular the empty channel name. -/
def JoinChannelCommandSchema : Schema :=
  objectSchema [FieldSpec.strField ("channel")]

/-- Source `MessageCommand.schema` (fchatClientCommands):
`z.object({ channel: channelSchema, message: z.string() })`. -/
def MessageCommandSchema : Schema :=
  objectSchema [FieldSpec.strField ("channel"), FieldSpec.strField ("message")]

/-- Source `PrivateMessageCommand.schema` (fchatClientCommands):
`z.object({ recipient: z.string(), message: z.string() })`. -/
def PrivateMessageCommandSchema : Schema :=
  objectSchema [FieldSpec.strField ("recipient"), FieldSpec.strField ("message")]

/-- Source `ProfileRequestCommand.schema` (fchatClientCommands):
`z.object({ character: z.string() })`. -/
def ProfileRequestCommandSchema : Schema :=
  objectSchema [FieldSpec.strField ("character")]

/-- The client CommandRegistry, `commandTypeToCommandObjectMap` of the
fchatClientCommands document, restricted to the verbs the theorems exercise
(every entry of the source map has a schema, so the `!schema` guard of
`sendCommand` never fires for a well-typed command; the argumentless
commands declared with `z.undefined()` and the commands with enum, number
or union fields are outside the fragment the theorems touch and are
omitted rather than approximated). -/
def clientCommandRegistry : List (String × Schema) :=
  [("JCH", JoinChannelCommandSchema), ("MSG", MessageCommandSchema),
   ("PRI", PrivateMessageCommandSchema), ("PRO", ProfileRequestCommandSchema)]

/-!
CommandDispatcher — FChatLib.ts `startWebsockets` message handler.

The handler splits the raw frame once on the first space, trims both halves,
`JSON.parse`s a non-empty argument string inside the `try` (a parse failure
reaches the `catch`: the event is logged and no listener of either kind
runs), looks the verb up in the registry, calls every generic listener with
the raw frame string when the verb is unknown, and otherwise validates:
a truthy argument goes through `safeParse` (failure → per-issue logging and
return, no listener), while a falsy/absent argument short-circuits to a
synthesized success with `undefined` data.  On success every listener of the
command type receives the validated data.  `DispatchOutcome` records which
of these paths the frame took, with the values handed to the listeners.
-/

inductive DispatchOutcome where
  | genericInvoked : String → DispatchOutcome
  | typeInvoked : String → Option Json → DispatchOutcome
  | droppedValidation : List Issue → DispatchOutcome
  | droppedException : DispatchOutcome

/-- Source `splitOnce`: split on every occurrence of the delimiter, keep the
first component, rejoin the rest.  The engine only calls it with the
single-space delimiter, which is the case modelled; other delimiters return
the string whole. -/
def splitOnce (str delim : String) : List String :=
  match delim.data with
  | [d] =>
    let components := (str.data.splitOn d).map (fun l => (⟨l⟩ : String))
    match components with
    | [] => [""]
    | first :: rest =>
      if rest.length > 0 then [first, String.intercalate delim rest] else [first]
  | _ => [str]

/-- The verb of a raw frame: first space-delimited token, trimmed. -/
def frameCommand (dataString : String) : String :=
  jsTrim ((splitOnce dataString (" ")).headD "")

/-- The argument of a raw frame: the rest of the frame trimmed, then parsed
when non-empty — `Except.error` is the thrown-`SyntaxError` path,
`Except.ok none` the absent-payload path. -/
def frameArgument (dataString : String) : Except Unit (Option Json) :=
  let argumentString := jsTrim (((splitOnce dataString (" ")).drop 1).headD "")
  if argumentString.length > 0 then
    match jsonParse argumentString with
    | some j => Except.ok (some j)
    | none => Except.error ()
  else Except.ok none

/-- Source message handler of `startWebsockets`, as the outcome it reaches
for a raw frame. -/
def dispatchFrame (registry : List (String × Schema)) (dataString : String) :
    DispatchOutcome :=
  match frameArgument dataString with
  | Except.error _ => DispatchOutcome.droppedException
  | Except.ok argument =>
    match alookup registry (frameCommand dataString) with
    | none => DispatchOutcome.genericInvoked dataString
    | some schema =>
      if jsTruthy argument then
        match schema.safeParse argument with
        | Except.error issues => DispatchOutcome.droppedValidation issues
        | Except.ok data => DispatchOutcome.typeInvoked (frameCommand dataString) (some data)
      else DispatchOutcome.typeInvoked (frameCommand dataString) none

/-!
Frame-to-state pipeline.

`connect()` registers the state-store handlers against the command types;
`applyStateListeners` replays that registration table (in registration
order) on the validated data a dispatched frame produced.  The conversions
below read the fields of the validated payload the way the typed handlers
receive them.
-/

/-- Read a string field of a validated object payload. -/
def asStringField (data : Option Json) (k : String) : Option String :=
  match data with
  | some (Json.obj fields) =>
    match getField fields k with
    | some (Json.str s) => some s
    | _ => none
  | _ => none

/-- Read an array field of a validated object payload. -/
def asArrField (data : Option Json) (k : String) : List Json :=
  match data with
  | some (Json.obj fields) =>
    match getField fields k with
    | some (Json.arr elts) => elts
    | _ => []
  | _ => []

/-- Read a string field of one JSON object element. -/
def asStringOf (j : Json) (k : String) : Option String :=
  match j with
  | Json.obj fields =>
    match getField fields k with
    | some (Json.str s) => some s
    | _ => none
  | _ => none

def toStatusEventArgs (data : Option Json) : StatusEventArgs :=
  ⟨asStringField data ("identity"), asStringField data ("character"),
   asStringField data ("gender"), asStringField data ("status"),
   asStringField data ("statusmsg")⟩

def toInitialChannelDataArgs (data : Option Json) : InitialChannelDataArgs :=
  ⟨(asStringField data ("channel")).getD "",
   (asArrField data ("users")).filterMap (fun j => asStringOf j ("identity"))⟩

def toJoinedArgs (data : Option Json) : JoinedArgs :=
  ⟨(asStringField data ("channel")).getD "",
   ((asStringField data ("character")).getD
     ((match data with
       | some (Json.obj fields) =>
         match getField fields ("character") with
         | some c => asStringOf c ("identity")
         | none => none
       | _ => none).getD "")),
   (asStringField data ("title")).getD ""⟩

def toLeftArgs (data : Option Json) : LeftArgs :=
  ⟨(asStringField data ("channel")).getD "", (asStringField data ("character")).getD ""⟩

def toOfflineArgs (data : Option Json) : OfflineArgs :=
  ⟨(asStringField data ("character")).getD ""⟩

def toOpListArgs (data : Option Json) : OpListArgs :=
  ⟨(asStringField data ("channel")).getD "",
   (asArrField data ("oplist")).filterMap (fun j =>
     match j with
     | Json.str s => some s
     | _ => none)⟩

def toOpArgs (data : Option Json) : OpArgs :=
  ⟨(asStringField data ("channel")).getD "", (asStringField data ("character")).getD ""⟩

def toOnlineListArgs (data : Option Json) : OnlineListArgs :=
  ⟨(asArrField data ("characters")).filterMap (fun j =>
    match j with
    | Json.arr [Json.str n, Json.str g, Json.str s, Json.str m] => some ⟨n, g, s, m⟩
    | _ => none)⟩

/-- The mutable stores the state-handling listeners touch. -/
structure BotState where
  usersInChannel : List (String × List String)
  chatOPsInChannel : List (String × List String)
  users : List (String × UserRow)
  channelNames : List (String × String)
deriving DecidableEq

def initialBotState : BotState := ⟨[], [], [], []⟩

/-- The listener table `connect()` registers, restricted to the state-store
handlers (the connection, plugin-router and invite listeners do not touch
these stores), applied in registration order; STATUS_CHANGED is registered
twice in the source, hence the double application for STA. -/
def applyStateListeners (st : BotState) (commandType : String) (data : Option Json) :
    BotState :=
  if commandType == "ICH" then
    { st with usersInChannel := addUsersToList st.usersInChannel (toInitialChannelDataArgs data) }
  else if commandType == "FLN" then
    { st with
      usersInChannel := removeUserFromChannels st.usersInChannel (toOfflineArgs data)
      users := onChangeUpdateUserState st.users (toStatusEventArgs data) }
  else if commandType == "LCH" then
    { st with usersInChannel := removeUserFromList st.usersInChannel (toLeftArgs data) }
  else if commandType == "JCH" then
    { st with
      usersInChannel := addSingleUserToList st.usersInChannel (toJoinedArgs data)
      channelNames := saveChannelNames st.channelNames (toJoinedArgs data) }
  else if commandType == "LIS" then
    { st with users := addUserListToGlobalState st.users (toOnlineListArgs data) }
  else if commandType == "STA" then
    { st with
      users := onChangeUpdateUserState
        (onChangeUpdateUserState st.users (toStatusEventArgs data)) (toStatusEventArgs data) }
  else if commandType == "COL" then
    { st with chatOPsInChannel := addChatOPsToList st.chatOPsInChannel (toOpListArgs data) }
  else if commandType == "COA" then
    { st with chatOPsInChannel := addChatOPToList st.chatOPsInChannel (toOpArgs data) }
  else if commandType == "COR" then
    { st with chatOPsInChannel := removeChatOPFromList st.chatOPsInChannel (toOpArgs data) }
  else st

/-- End-to-end processing of one inbound frame against the state stores:
dispatch, then (only when the dispatcher invoked the type's listeners) apply
the registered state handlers. -/
def processFrame (registry : List (String × Schema)) (st : BotState) (frame : String) :
    BotState :=
  match dispatchFrame registry frame with
  | DispatchOutcome.typeInvoked commandType data => applyStateListeners st commandType data
  | _ => st

/-!
Roster event machine for the reachability invariant: the four inbound event
kinds that mutate `usersInChannel`, stepped from the empty store.
-/

inductive RosterEvent where
  | initialChannelData : InitialChannelDataArgs → RosterEvent
  | joinedChannel : JoinedArgs → RosterEvent
  | leftChannel : LeftArgs → RosterEvent
  | wentOffline : OfflineArgs → RosterEvent

def rosterStep (uic : List (String × List String)) : RosterEvent → List (String × List String)
  | RosterEvent.initialChannelData args => addUsersToList uic args
  | RosterEvent.joinedChannel args => addSingleUserToList uic args
  | RosterEvent.leftChannel args => removeUserFromList uic args
  | RosterEvent.wentOffline args => removeUserFromChannels uic args

/-- The roster store reached by a sequence of inbound roster events from the
initial empty store. -/
def runRosterEvents (evs : List RosterEvent) : List (String × List String) :=
  evs.foldl rosterStep []

/-- Every roster stored in the channel map is duplicate-free. -/
def allNodup (m : List (String × List String)) : Bool :=
  m.all (fun p => listNodup p.2)

/-!
General lemmas about the JS primitive models.
-/

theorem char_toNat_ofNat_valid (n : Nat) (h : n.isValidChar) : (Char.ofNat n).toNat = n := by
  simp [Char.ofNat, h]
  rfl

theorem charToLower_idem (c : Char) : (c.toLower).toLower = c.toLower := by
  by_cases h : c.toNat ≥ 65 ∧ c.toNat ≤ 90
  · have e1 : c.toLower = Char.ofNat (c.toNat + 32) := by
      unfold Char.toLower
      rw [if_pos h]
    have hv : (c.toNat + 32).isValidChar := by
      unfold Nat.isValidChar
      left
      omega
    have hn : (Char.ofNat (c.toNat + 32)).toNat = c.toNat + 32 :=
      char_toNat_ofNat_valid (c.toNat + 32) hv
    rw [e1]
    unfold Char.toLower
    rw [hn]
    have h2 : ¬(c.toNat + 32 ≥ 65 ∧ c.toNat + 32 ≤ 90) := by omega
    rw [if_neg h2]
  · have e1 : c.toLower = c := by
      unfold Char.toLower
      rw [if_neg h]
    simp only [e1]

theorem jsToLower_idem (s : String) : jsToLower (jsToLower s) = jsToLower s := by
  unfold jsToLower
  simp only [List.map_map]
  congr 1
  exact List.map_congr_left (fun a _ => charToLower_idem a)

theorem jsIndexOf_nonneg_lt {α : Type} [BEq α] (l : List α) (c : α)
    (h : ¬jsIndexOf l c = -1) : 0 ≤ jsIndexOf l c ∧ jsIndexOf l c < l.length := by
  induction l with
  | nil => simp [jsIndexOf] at h
  | cons a t ih =>
    by_cases ha : (a == c) = true
    · simp only [jsIndexOf, ha, if_true, List.length_cons]
      constructor
      · omega
      · push_cast
        omega
    · simp only [jsIndexOf, ha, if_false] at h ⊢
      by_cases h2 : jsIndexOf t c = -1
      · have hb : (jsIndexOf t c == -1) = true := by simpa using h2
        simp [hb] at h
      · have hb : (jsIndexOf t c == -1) = false := by simpa using h2
        simp only [hb, if_false] at h ⊢
        have := ih h2
        simp only [List.length_cons]
        push_cast
        omega

theorem jsIndexOf_eq_neg_one_iff {α : Type} [BEq α] [LawfulBEq α] (l : List α) (c : α) :
    jsIndexOf l c = -1 ↔ ¬c ∈ l := by
  induction l with
  | nil => simp [jsIndexOf]
  | cons a t ih =>
    by_cases ha : (a == c) = true
    · have ha2 : a = c := eq_of_beq ha
      subst ha2
      simp [jsIndexOf]
    · have ha3 : (a == c) = false := by simpa using ha
      have ha2 : ¬a = c := fun habs => ha (by simp [habs])
      simp only [jsIndexOf, ha3, Bool.false_eq_true, if_false, List.mem_cons]
      by_cases h2 : jsIndexOf t c = -1
      · have hb : (jsIndexOf t c == -1) = true := by simpa using h2
        simp only [hb, if_true]
        constructor
        · intro _ habs
          rcases habs with hca | hct
          · exact ha2 hca.symm
          · exact (ih.mp h2) hct
        · intro _
          trivial
      · have hb : (jsIndexOf t c == -1) = false := by simpa using h2
        have hnn := jsIndexOf_nonneg_lt t c h2
        simp only [hb, Bool.false_eq_true, if_false]
        constructor
        · intro habs
          exact absurd habs (by omega)
        · intro habs
          have hnt : ¬c ∈ t := fun hct => habs (Or.inr hct)
          exact absurd (ih.mpr hnt) h2

theorem jsSpliceRemove_zero {α : Type} (a : α) (l : List α) :
    jsSpliceRemove (a :: l) 0 1 = l := by
  simp [jsSpliceRemove]

theorem jsSpliceRemove_cons {α : Type} (a : α) (l : List α) (i : Int)
    (h0 : 0 ≤ i) (h : i < l.length) :
    jsSpliceRemove (a :: l) (i + 1) 1 = a :: jsSpliceRemove l i 1 := by
  unfold jsSpliceRemove
  have hneg : ¬(i + 1 < 0) := by omega
  have hneg2 : ¬(i < 0) := by omega
  simp only [if_neg hneg, if_neg hneg2]
  have htn : (i + 1).toNat = i.toNat + 1 := by omega
  have hm1 : min (i + 1).toNat (a :: l).length = i.toNat + 1 := by
    simp only [List.length_cons, htn]
    omega
  have hm2 : min i.toNat l.length = i.toNat := by omega
  rw [hm1, hm2]
  simp [List.take_succ_cons, List.drop_succ_cons]

theorem removeIdiom_eq_removeFirst {α : Type} [BEq α] [LawfulBEq α] (l : List α) (c : α) :
    (if !(jsIndexOf l c == -1) then jsSpliceRemove l (jsIndexOf l c) 1 else l) =
      removeFirst l c := by
  induction l with
  | nil => simp [jsIndexOf, removeFirst]
  | cons a t ih =>
    by_cases ha : (a == c) = true
    · simp only [jsIndexOf, removeFirst, ha, if_true]
      simp [jsSpliceRemove_zero]
    · have ha3 : (a == c) = false := by simpa using ha
      simp only [jsIndexOf, removeFirst, ha3, Bool.false_eq_true, if_false]
      by_cases h2 : jsIndexOf t c = -1
      · have hb : (jsIndexOf t c == -1) = true := by simpa using h2
        have ht : t = removeFirst t c := by
          have h3 := ih
          rw [hb] at h3
          simpa using h3
        simp only [hb, if_true]
        simp [← ht]
      · have hb : (jsIndexOf t c == -1) = false := by simpa using h2
        have hnn := jsIndexOf_nonneg_lt t c h2
        have hne : ((jsIndexOf t c + 1) == -1) = false := by
          have hx : ¬(jsIndexOf t c + 1 = -1) := by omega
          simpa using hx
        have ht : jsSpliceRemove t (jsIndexOf t c) 1 = removeFirst t c := by
          have h3 := ih
          rw [hb] at h3
          simpa using h3
        simp only [hb, Bool.false_eq_true, if_false, hne, Bool.not_false, if_true]
        rw [jsSpliceRemove_cons a t _ hnn.1 hnn.2, ht]

/-!
Duplicate-freedom lemmas for the roster invariant.
-/

theorem listNodup_iff (l : List String) : listNodup l = true ↔ l.Nodup := by
  induction l with
  | nil => simp [listNodup]
  | cons a t ih =>
    simp only [listNodup, Bool.and_eq_true, Bool.not_eq_true', List.nodup_cons]
    constructor
    · intro h
      refine ⟨fun hm => ?_, ih.mp h.2⟩
      have hc : t.contains a = true := List.elem_iff.mpr hm
      rw [h.1] at hc
      exact absurd hc (by simp)
    · intro h
      refine ⟨?_, ih.mpr h.2⟩
      by_cases hc : t.contains a = true
      · exact absurd (List.elem_iff.mp hc) h.1
      · simpa using hc

theorem mem_removeFirst {α : Type} [BEq α] [LawfulBEq α] (l : List α) (c x : α)
    (h : x ∈ removeFirst l c) : x ∈ l := by
  induction l with
  | nil => simpa [removeFirst] using h
  | cons a t ih =>
    by_cases ha : (a == c) = true
    · simp only [removeFirst, ha, if_true] at h
      exact List.mem_cons_of_mem a h
    · have ha3 : (a == c) = false := by simpa using ha
      simp only [removeFirst, ha3, Bool.false_eq_true, if_false, List.mem_cons] at h
      rcases h with h | h
      · exact h ▸ List.mem_cons_self x t
      · exact List.mem_cons_of_mem a (ih h)

theorem removeFirst_of_not_mem {α : Type} [BEq α] [LawfulBEq α] (l : List α) (c : α)
    (h : ¬c ∈ l) : removeFirst l c = l := by
  induction l with
  | nil => rfl
  | cons a t ih =>
    have ha : ¬(a == c) = true := by
      intro hb
      exact h (List.mem_cons.mpr (Or.inl (eq_of_beq hb).symm))
    have ha3 : (a == c) = false := by simpa using ha
    simp only [removeFirst, ha3, Bool.false_eq_true, if_false]
    rw [ih (fun hm => h (List.mem_cons_of_mem a hm))]

theorem nodup_removeFirst {α : Type} [BEq α] [LawfulBEq α] (l : List α) (c : α)
    (h : l.Nodup) : (removeFirst l c).Nodup := by
  induction l with
  | nil => simpa [removeFirst] using h
  | cons a t ih =>
    rcases List.nodup_cons.mp h with ⟨hat, ht⟩
    by_cases ha : (a == c) = true
    · simpa [removeFirst, ha] using ht
    · have ha3 : (a == c) = false := by simpa using ha
      simp only [removeFirst, ha3, Bool.false_eq_true, if_false, List.nodup_cons]
      exact ⟨fun hm => hat (mem_removeFirst t c a hm), ih ht⟩

theorem not_mem_removeFirst_self {α : Type} [BEq α] [LawfulBEq α] (l : List α) (c : α)
    (h : l.Nodup) : ¬c ∈ removeFirst l c := by
  induction l with
  | nil => simp [removeFirst]
  | cons a t ih =>
    rcases List.nodup_cons.mp h with ⟨hat, ht⟩
    by_cases ha : (a == c) = true
    · have ha2 : a = c := eq_of_beq ha
      simp only [removeFirst, ha, if_true]
      exact ha2 ▸ hat
    · have ha3 : (a == c) = false := by simpa using ha
      have ha2 : ¬a = c := fun habs => ha (by simp [habs])
      simp only [removeFirst, ha3, Bool.false_eq_true, if_false, List.mem_cons]
      rintro (hca | hct)
      · exact ha2 hca.symm
      · exact ih ht hct

theorem nodup_pushIfAbsent (l : List String) (u : String) (h : l.Nodup) :
    (pushIfAbsent l u).Nodup := by
  unfold pushIfAbsent
  by_cases hi : (jsIndexOf l u == -1) = true
  · have hnm : ¬u ∈ l := (jsIndexOf_eq_neg_one_iff l u).mp (by simpa using hi)
    simp only [hi, if_true, List.nodup_append]
    exact ⟨h, List.nodup_singleton u, (List.disjoint_singleton).mpr hnm⟩
  · have hi3 : (jsIndexOf l u == -1) = false := by simpa using hi
    simpa [hi3] using h

theorem nodup_foldl_pushIfAbsent (us : List String) (l : List String) (h : l.Nodup) :
    (us.foldl pushIfAbsent l).Nodup := by
  induction us generalizing l with
  | nil => simpa using h
  | cons u us ih => exact ih (pushIfAbsent l u) (nodup_pushIfAbsent l u h)

theorem allNodup_alookup (m : List (String × List String)) (k : String) (v : List String)
    (hm : allNodup m = true) (hv : alookup m k = some v) : v.Nodup := by
  induction m with
  | nil => simp [alookup] at hv
  | cons p rest ih =>
    rcases p with ⟨pk, pv⟩
    simp only [allNodup, List.all_cons, Bool.and_eq_true] at hm
    by_cases hk : (pk == k) = true
    · simp only [alookup, hk, if_true, Option.some.injEq] at hv
      exact hv ▸ (listNodup_iff pv).mp hm.1
    · have hk3 : (pk == k) = false := by simpa using hk
      simp only [alookup, hk3, Bool.false_eq_true, if_false] at hv
      exact ih hm.2 hv

theorem allNodup_alookup_getD (m : List (String × List String)) (k : String)
    (hm : allNodup m = true) : ((alookup m k).getD []).Nodup := by
  cases hv : alookup m k with
  | none => simp
  | some v => simpa using allNodup_alookup m k v hm hv

theorem allNodup_setEntry (m : List (String × List String)) (k : String) (v : List String)
    (hm : allNodup m = true) (hv : v.Nodup) : allNodup (setEntry m k v) = true := by
  induction m with
  | nil =>
    simp only [setEntry, allNodup, List.all_cons, List.all_nil, Bool.and_true]
    exact (listNodup_iff v).mpr hv
  | cons p rest ih =>
    rcases p with ⟨pk, pv⟩
    simp only [allNodup, List.all_cons, Bool.and_eq_true] at hm
    by_cases hk : (pk == k) = true
    · simp only [setEntry, hk, if_true, allNodup, List.all_cons, Bool.and_eq_true]
      exact ⟨(listNodup_iff v).mpr hv, hm.2⟩
    · have hk3 : (pk == k) = false := by simpa using hk
      simp only [setEntry, hk3, Bool.false_eq_true, if_false, allNodup, List.all_cons,
        Bool.and_eq_true]
      exact ⟨hm.1, ih hm.2⟩

theorem splice_found_eq_removeFirst {α : Type} [BEq α] [LawfulBEq α] (l : List α) (c : α)
    (h : (jsIndexOf l c == -1) = false) :
    jsSpliceRemove l (jsIndexOf l c) 1 = removeFirst l c := by
  have h3 := removeIdiom_eq_removeFirst l c
  rw [h] at h3
  simpa using h3

theorem removeUserFromChannels_eq_map (m : List (String × List String)) (c : String) :
    removeUserFromChannels m ⟨c⟩ = m.map (fun p => (p.1, removeFirst p.2 c)) := by
  unfold removeUserFromChannels
  refine List.map_congr_left (fun p _ => ?_)
  by_cases hg : (jsIndexOf p.2 c == -1) = false
  · simp only [hg, Bool.not_false, if_true]
    rw [splice_found_eq_removeFirst p.2 c hg]
  · have hg2 : (jsIndexOf p.2 c == -1) = true := by
      cases hx : (jsIndexOf p.2 c == -1) with
      | false => exact absurd hx hg
      | true => rfl
    have hnm : ¬c ∈ p.2 := (jsIndexOf_eq_neg_one_iff p.2 c).mp (by simpa using hg2)
    simp only [hg2, Bool.not_true, Bool.false_eq_true, if_false]
    rw [removeFirst_of_not_mem p.2 c hnm]

theorem allNodup_map_removeFirst (m : List (String × List String)) (c : String)
    (hm : allNodup m = true) :
    allNodup (m.map (fun p => (p.1, removeFirst p.2 c))) = true := by
  induction m with
  | nil => rfl
  | cons p rest ih =>
    simp only [allNodup, List.all_cons, Bool.and_eq_true] at hm ⊢
    simp only [List.map_cons, List.all_cons, Bool.and_eq_true] at *
    refine ⟨?_, ih hm.2⟩
    exact (listNodup_iff _).mpr (nodup_removeFirst p.2 c ((listNodup_iff _).mp hm.1))

theorem allNodup_rosterStep (m : List (String × List String)) (ev : RosterEvent)
    (hm : allNodup m = true) : allNodup (rosterStep m ev) = true := by
  cases ev with
  | initialChannelData args =>
    show allNodup (addUsersToList m args) = true
    unfold addUsersToList
    have h0 : ((alookup m (jsToLower args.channel)).getD []).Nodup :=
      allNodup_alookup_getD m (jsToLower args.channel) hm
    have h1 := nodup_foldl_pushIfAbsent args.users _ h0
    exact allNodup_setEntry m (jsToLower args.channel) _ hm h1
  | joinedChannel args =>
    show allNodup (addSingleUserToList m args) = true
    unfold addSingleUserToList
    have h0 : ((alookup m (jsToLower args.channel)).getD []).Nodup :=
      allNodup_alookup_getD m (jsToLower args.channel) hm
    have h1 := nodup_pushIfAbsent _ args.identity h0
    exact allNodup_setEntry m (jsToLower args.channel) _ hm h1
  | leftChannel args =>
    show allNodup (removeUserFromList m args) = true
    unfold removeUserFromList
    cases halk : alookup m (jsToLower args.channel) with
    | none =>
      simp only [halk]
      exact hm
    | some cur =>
      simp only [halk]
      by_cases hg : (jsIndexOf cur args.character == -1) = false
      · simp only [hg, Bool.not_false, if_true]
        rw [splice_found_eq_removeFirst cur args.character hg]
        have hcur : cur.Nodup := allNodup_alookup m (jsToLower args.channel) cur hm halk
        exact allNodup_setEntry m (jsToLower args.channel) _ hm
          (nodup_removeFirst cur args.character hcur)
      · have hg2 : (jsIndexOf cur args.character == -1) = true := by
          cases hx : (jsIndexOf cur args.character == -1) with
          | false => exact absurd hx hg
          | true => rfl
        simp only [hg2, Bool.not_true, Bool.false_eq_true, if_false]
        exact hm
  | wentOffline args =>
    show allNodup (removeUserFromChannels m args) = true
    cases args with
    | mk character =>
      rw [removeUserFromChannels_eq_map]
      exact allNodup_map_removeFirst m character hm

theorem allNodup_run (evs : List RosterEvent) (m : List (String × List String))
    (hm : allNodup m = true) : allNodup (evs.foldl rosterStep m) = true := by
  induction evs generalizing m with
  | nil => exact hm
  | cons ev evs ih => exact ih (rosterStep m ev) (allNodup_rosterStep m ev hm)

theorem removal_kills (m : List (String × List String)) (U : String)
    (hm : allNodup m = true) :
    (removeUserFromChannels m ⟨U⟩).all (fun p => !(p.2.contains U)) = true := by
  rw [removeUserFromChannels_eq_map]
  induction m with
  | nil => rfl
  | cons p rest ih =>
    simp only [allNodup, List.all_cons, Bool.and_eq_true] at hm
    simp only [List.map_cons, List.all_cons, Bool.and_eq_true]
    refine ⟨?_, ih hm.2⟩
    have hnodup : p.2.Nodup := (listNodup_iff _).mp hm.1
    have hnm : ¬U ∈ removeFirst p.2 U := not_mem_removeFirst_self p.2 U hnodup
    have hc : (removeFirst p.2 U).contains U = false := by
      cases hx : (removeFirst p.2 U).contains U with
      | false => rfl
      | true => exact absurd (List.elem_iff.mp hx) hnm
    show (!(removeFirst p.2 U).contains U) = true
    rw [hc]
    rfl

/-!
Association-list lemmas.
-/

theorem alookup_setEntry_self {α : Type} (m : List (String × α)) (k : String) (v : α) :
    alookup (setEntry m k v) k = some v := by
  induction m with
  | nil => simp [setEntry, alookup]
  | cons p rest ih =>
    rcases p with ⟨pk, pv⟩
    by_cases hk : (pk == k) = true
    · simp [setEntry, alookup, hk]
    · have hk3 : (pk == k) = false := by simpa using hk
      simp [setEntry, alookup, hk3, ih]

theorem alookup_setEntry_other {α : Type} (m : List (String × α)) (k d : String) (v : α)
    (h : ¬d = k) : alookup (setEntry m k v) d = alookup m d := by
  induction m with
  | nil =>
    have : (k == d) = false := by
      simp only [beq_eq_false_iff_ne, ne_eq]
      exact fun habs => h habs.symm
    simp [setEntry, alookup, this]
  | cons p rest ih =>
    rcases p with ⟨pk, pv⟩
    by_cases hk : (pk == k) = true
    · have hpk : pk = k := eq_of_beq hk
      have hpd : (pk == d) = false := by
        simp only [beq_eq_false_iff_ne, ne_eq]
        exact fun habs => h (habs.symm.trans hpk)
      simp [setEntry, alookup, hk, hpd]
    · have hk3 : (pk == k) = false := by simpa using hk
      by_cases hd : (pk == d) = true
      · simp [setEntry, alookup, hk3, hd]
      · have hd3 : (pk == d) = false := by simpa using hd
        simp [setEntry, alookup, hk3, hd3, ih]

theorem alookup_none_iff_not_mem_keys {α : Type} (m : List (String × α)) (c : String) :
    alookup m c = none ↔ ¬c ∈ m.map Prod.fst := by
  induction m with
  | nil => simp [alookup]
  | cons p rest ih =>
    rcases p with ⟨pk, pv⟩
    by_cases hk : (pk == c) = true
    · have : pk = c := eq_of_beq hk
      simp [alookup, hk, this]
    · have hk3 : (pk == c) = false := by simpa using hk
      have hne : ¬pk = c := by simpa using hk3
      simp only [alookup, hk3, Bool.false_eq_true, if_false, List.map_cons, List.mem_cons]
      rw [ih]
      constructor
      · rintro hn (hc | hc)
        · exact hne hc.symm
        · exact hn hc
      · intro hn hc
        exact hn (Or.inr hc)

/-!
Claim theorems.
-/

/-- C1: the claim states that `unloadPlugin(channel, n)` removes the loaded
PluginRef named `n` when present (persisting the mapping) and is a no-op
when `n` is not loaded.  The code inverts the guard: with plugin A loaded,
unloading A leaves the state untouched; with A and B loaded, unloading the
absent C splices at index `-1`, removing the LAST plugin B and persisting
the shrunk mapping. -/
theorem c1_unloadPlugin_code_bug :
    internalUnloadPlugin
        (⟨[⟨("A")⟩], [(("lounge"), [⟨("A")⟩])], [(("lounge"), [("A")])]⟩ : PluginHostState)
        ("lounge") ("A") =
      (⟨[⟨("A")⟩], [(("lounge"), [⟨("A")⟩])], [(("lounge"), [("A")])]⟩ : PluginHostState) ∧
    internalUnloadPlugin
        (⟨[⟨("A")⟩, ⟨("B")⟩], [(("lounge"), [⟨("A")⟩, ⟨("B")⟩])],
          [(("lounge"), [("A"), ("B")])]⟩ : PluginHostState)
        ("lounge") ("C") =
      (⟨[⟨("A")⟩], [(("lounge"), [⟨("A")⟩])], [(("lounge"), [("A")])]⟩ : PluginHostState) :=
  ⟨rfl, rfl⟩

/-- C2: the claim states that loading plugin P (successfully, here with the
one discovered command `hello`) and then unloading P restores the channel's
loaded-plugin list and the persisted mapping to their pre-load state.  From
the empty state the code ends with P still loaded and still persisted,
because `internalUnloadPlugin` does nothing when the name IS present. -/
theorem c2_load_unload_roundtrip_code_bug :
    (internalUnloadPlugin
        (internalLoadPlugin (⟨[], [], []⟩ : PluginHostState) ("lounge") ("P")
          (some [("hello")]))
        ("lounge") ("P")).pluginsLoaded = [⟨("P")⟩] ∧
    (internalUnloadPlugin
        (internalLoadPlugin (⟨[], [], []⟩ : PluginHostState) ("lounge") ("P")
          (some [("hello")]))
        ("lounge") ("P")).savedFile = [(("lounge"), [("P")])] ∧
    (⟨[], [], []⟩ : PluginHostState).pluginsLoaded = [] ∧
    (⟨[], [], []⟩ : PluginHostState).savedFile = [] :=
  ⟨rfl, rfl, rfl, rfl⟩

/-- C4 counterexample: with master "Admin" and no operators, the user
"admin" is the master under the case-insensitive check, yet `isUserChatOP`
returns false — refuting the claim that the operator check's master
comparison is case-insensitive. -/
theorem c4_counterexample :
    isUserMaster (⟨("Admin")⟩ : Config) ("admin") = true ∧
    isUserChatOP (⟨("Admin")⟩ : Config) [] ("admin") ("lounge") = false :=
  ⟨rfl, rfl⟩

/-- C4 (amended): `isUserMaster(x)` is true iff `x` equals the configured
master after lowercasing both, and `isUserChatOP(x, c)` is true iff `x` is
in channel `c`'s operator list or `x` equals the configured master by exact,
case-SENSITIVE string equality (the operator check does not reuse the
case-insensitive master check). -/
theorem c4_amended (cfg : Config) (ops : List (String × List String)) (x c : String) :
    (isUserMaster cfg x = true ↔ jsToLower x = jsToLower cfg.master) ∧
    (isUserChatOP cfg ops x c = true ↔ (x ∈ getChatOPList ops c ∨ x = cfg.master)) := by
  constructor
  · simp [isUserMaster]
  · have hl : getChatOPList ops (jsToLower c) = getChatOPList ops c := by
      unfold getChatOPList
      rw [jsToLower_idem]
    simp only [isUserChatOP]
    rw [hl]
    have hiff : ((jsIndexOf (getChatOPList ops c) x == -1) = false) ↔ x ∈ getChatOPList ops c := by
      constructor
      · intro hne
        by_contra hnm
        rw [(jsIndexOf_eq_neg_one_iff (getChatOPList ops c) x).mpr hnm] at hne
        simp at hne
      · intro hm
        have : ¬jsIndexOf (getChatOPList ops c) x = -1 :=
          fun habs => (jsIndexOf_eq_neg_one_iff (getChatOPList ops c) x).mp habs hm
        simpa using this
    simp only [Bool.or_eq_true, Bool.not_eq_true', beq_iff_eq]
    rw [hiff]

/-- C6: N throttled sends issued back-to-back with no elapsed time since the
last dispatch, flood limit F > 0: the i-th caller (observing queue depth i)
computes the wait `i * F - elapsed = i * F`, and the scheduled dispatch
times are strictly increasing, spaced exactly F apart. -/
theorem c6_throttle_monotone (N : Nat) (F t : ℚ) (hF : 0 < F) (hN : 1 ≤ N) :
    (∀ i : Nat, 1 ≤ i → i ≤ N → sendDataWait i t t F = (i : ℚ) * F) ∧
    (∀ i j : Nat, 1 ≤ i → i < j → j ≤ N →
      scheduledDispatchTime t F i < scheduledDispatchTime t F j) ∧
    (∀ i : Nat, 1 ≤ i → i + 1 ≤ N →
      scheduledDispatchTime t F (i + 1) - scheduledDispatchTime t F i = F) := by
  have hwait : ∀ i : Nat, sendDataWait i t t F = (i : ℚ) * F := by
    intro i
    unfold sendDataWait
    rw [sub_self, if_pos hF]
    ring
  refine ⟨fun i _ _ => hwait i, fun i j _ hij _ => ?_, fun i _ _ => ?_⟩
  · unfold scheduledDispatchTime
    rw [hwait i, hwait j]
    have hij2 : (i : ℚ) < j := by exact_mod_cast hij
    have := mul_lt_mul_of_pos_right hij2 hF
    linarith
  · unfold scheduledDispatchTime
    rw [hwait i, hwait (i + 1)]
    push_cast
    ring

/-- C6 witness: three back-to-back sends at flood limit 2. -/
theorem c6_throttle_monotone_witness :
    sendDataWait 1 0 0 2 = 2 ∧
    scheduledDispatchTime 0 2 1 < scheduledDispatchTime 0 2 2 ∧
    scheduledDispatchTime 0 2 2 - scheduledDispatchTime 0 2 1 = 2 := by
  have h := c6_throttle_monotone 3 2 0 (by norm_num) (by norm_num)
  refine ⟨?_, h.2.1 1 2 (by norm_num) (by norm_num) (by norm_num),
    ?_⟩
  · have := h.1 1 (by norm_num) (by norm_num)
    simpa using this
  · have := h.2.2 1 (by norm_num) (by norm_num)
    simpa using this

/-- C7: an outbound command whose payload fails validation against the
registered schema makes `sendCommand` log every issue, return false, and
write nothing to the transport socket. -/
theorem c7_outbound_validation_failure (registry : List (String × Schema)) (wsOpen : Bool)
    (command : String) (object : Option Json) (schema : Schema) (issues : List Issue)
    (hlookup : alookup registry command = some schema)
    (hfail : schema.safeParse object = Except.error issues) :
    sendCommand registry wsOpen command object = SendOutcome.validationFailed issues ∧
    sendCommandReturn (sendCommand registry wsOpen command object) = false ∧
    sendCommandWrite (sendCommand registry wsOpen command object) = none ∧
    sendCommandLoggedIssues (sendCommand registry wsOpen command object) = issues := by
  have he : sendCommand registry wsOpen command object = SendOutcome.validationFailed issues := by
    simp only [sendCommand, hlookup, hfail]
  refine ⟨he, ?_, ?_, ?_⟩
  · rw [he]
    rfl
  · rw [he]
    rfl
  · rw [he]
    rfl

/-- C7 witness: a channel-join whose payload is missing the required
`channel` field fails the real JoinChannelCommand schema; `sendCommand`
logs the issue, returns false and writes nothing. -/
theorem c7_outbound_validation_failure_witness :
    sendCommand clientCommandRegistry true ("JCH") (some (Json.obj [])) =
      SendOutcome.validationFailed [⟨("channel"), ("Required"), ("invalid_type")⟩] ∧
    sendCommandReturn (sendCommand clientCommandRegistry true ("JCH")
      (some (Json.obj []))) = false ∧
    sendCommandWrite (sendCommand clientCommandRegistry true ("JCH")
      (some (Json.obj []))) = none := by
  have h := c7_outbound_validation_failure clientCommandRegistry true ("JCH")
    (some (Json.obj [])) JoinChannelCommandSchema
    [⟨("channel"), ("Required"), ("invalid_type")⟩] rfl rfl
  exact ⟨h.1, h.2.1, h.2.2.1⟩

/-- C7 counterexample: the claim's own example input — a channel-join with
an empty channel name — does NOT fail validation in the program: the real
JoinChannelCommand schema is a plain string channel, so the payload
validates, `sendCommand` returns true and writes `JCH {"channel":""}`
to the transport, refuting the claimed failure/no-write at this input. -/
theorem c7_counterexample :
    exceptIsOk (JoinChannelCommandSchema.safeParse
      (some (Json.obj [(("channel"), Json.str (""))]))) = true ∧
    sendCommand clientCommandRegistry true ("JCH")
        (some (Json.obj [(("channel"), Json.str (""))])) =
      SendOutcome.sent ("JCH \x7b\"channel\":\"\"\x7d") ∧
    sendCommandReturn (sendCommand clientCommandRegistry true ("JCH")
        (some (Json.obj [(("channel"), Json.str (""))]))) = true ∧
    sendCommandWrite (sendCommand clientCommandRegistry true ("JCH")
        (some (Json.obj [(("channel"), Json.str (""))]))) =
      some ("JCH \x7b\"channel\":\"\"\x7d") :=
  ⟨rfl, rfl, rfl, rfl⟩

/-- C10: `addCommandListener` and `removeCommandListener` throw the error
`Command <id> not found` exactly when the identifier is not a known server
command type (the listener table has one entry per known type); for a known
type, add appends the listener and remove drops the first matching reference,
leaving the state untouched when the reference is absent. -/
theorem c10_listener_registry (ls : List (String × List Nat)) (command : String) (fn : Nat)
    (hkeys : ls.map Prod.fst = fchatServerCommandTypes) :
    (¬command ∈ fchatServerCommandTypes →
      addCommandListener ls command fn =
        Except.error (("Command ") ++ command ++ (" not found")) ∧
      removeCommandListener ls command fn =
        Except.error (("Command ") ++ command ++ (" not found"))) ∧
    (∀ l, alookup ls command = some l →
      addCommandListener ls command fn = Except.ok (setEntry ls command (l ++ [fn])) ∧
      (¬fn ∈ l → removeCommandListener ls command fn = Except.ok ls) ∧
      (fn ∈ l → removeCommandListener ls command fn =
        Except.ok (setEntry ls command (removeFirst l fn)))) := by
  constructor
  · intro hnm
    have hn : alookup ls command = none :=
      (alookup_none_iff_not_mem_keys ls command).mpr (hkeys ▸ hnm)
    constructor
    · unfold addCommandListener
      rw [hn]
    · unfold removeCommandListener
      rw [hn]
  · intro l hl
    refine ⟨?_, ?_, ?_⟩
    · unfold addCommandListener
      rw [hl]
    · intro hnm
      unfold removeCommandListener
      rw [hl]
      have hidx : jsIndexOf l fn = -1 := (jsIndexOf_eq_neg_one_iff l fn).mpr hnm
      simp [hidx]
    · intro hm
      unfold removeCommandListener
      rw [hl]
      have hidx : ¬jsIndexOf l fn = -1 :=
        fun habs => (jsIndexOf_eq_neg_one_iff l fn).mp habs hm
      have hb : (jsIndexOf l fn == -1) = false := by simpa using hidx
      simp only [hb, Bool.not_false, if_true]
      rw [splice_found_eq_removeFirst l fn hb]

/-- C10 witness: unknown identifier XXX throws; for the known type MSG, a
listener is appended. -/
theorem c10_listener_registry_witness :
    addCommandListener initCommandListeners ("XXX") 0 =
      Except.error (("Command ") ++ ("XXX") ++ (" not found")) ∧
    addCommandListener initCommandListeners ("MSG") 0 =
      Except.ok (setEntry initCommandListeners ("MSG") ([] ++ [0])) := by
  have h := c10_listener_registry initCommandListeners ("XXX") 0 (by rfl)
  have h2 := c10_listener_registry initCommandListeners ("MSG") 0 (by rfl)
  exact ⟨(h.1 (by decide)).1, (h2.2 [] rfl).1⟩

/-- C9: after the went-offline event for U is processed on any reachable
roster store, U is absent from every channel's roster — including channels U
was never added to; and every reachable store has duplicate-free rosters
(each insertion deduplicates), which is why the single splice per channel
removes U completely. -/
theorem c9_offline_roster_invariant (evs : List RosterEvent) (U : String) :
    ((removeUserFromChannels (runRosterEvents evs) ⟨U⟩).all
      (fun p => !(p.2.contains U)) = true) ∧
    ((runRosterEvents evs).all (fun p => listNodup p.2) = true) := by
  have hall : allNodup (runRosterEvents evs) = true := allNodup_run evs [] rfl
  exact ⟨removal_kills (runRosterEvents evs) U hall, hall⟩

/-- C3 counterexample: the frame `STA` carries no payload and the STA schema
does not permit an absent payload, yet the dispatcher synthesizes a success
and invokes the STA listeners (with undefined data) — refuting the claim
that an empty success is synthesized only when the schema permits no
payload. -/
theorem c3_counterexample :
    dispatchFrame serverCommandRegistry ("STA") =
      DispatchOutcome.typeInvoked ("STA") none ∧
    exceptIsOk (staSchema.safeParse none) = false :=
  ⟨rfl, rfl⟩

/-- C3 (amended): for a known verb, a present truthy payload is validated
against the registered schema — on failure no type listener is invoked, on
success the listeners receive the validated value; when the payload is
absent (or falsy), a successful empty result is synthesized UNCONDITIONALLY,
regardless of whether the schema permits a missing payload, and the type
listeners are invoked with the empty value. -/
theorem c3_dispatch_validation_amended (registry : List (String × Schema))
    (dataString : String) (schema : Schema)
    (hlookup : alookup registry (frameCommand dataString) = some schema) :
    (∀ j, frameArgument dataString = Except.ok (some j) → jsTruthy (some j) = true →
      (∀ issues, schema.safeParse (some j) = Except.error issues →
        dispatchFrame registry dataString = DispatchOutcome.droppedValidation issues) ∧
      (∀ d, schema.safeParse (some j) = Except.ok d →
        dispatchFrame registry dataString =
          DispatchOutcome.typeInvoked (frameCommand dataString) (some d))) ∧
    (∀ arg, frameArgument dataString = Except.ok arg → jsTruthy arg = false →
      dispatchFrame registry dataString =
        DispatchOutcome.typeInvoked (frameCommand dataString) none) := by
  constructor
  · intro j harg htr
    constructor
    · intro issues hfail
      simp only [dispatchFrame, harg, hlookup, htr, if_true, hfail]
    · intro d hok
      simp only [dispatchFrame, harg, hlookup, htr, if_true, hok]
  · intro arg harg hfalse
    simp only [dispatchFrame, harg, hlookup, hfalse, Bool.false_eq_true, if_false]

/-- C3 witness: a valid STA frame reaches the STA listeners with the
validated payload. -/
theorem c3_dispatch_validation_amended_witness :
    dispatchFrame serverCommandRegistry
        ("STA \x7b\"character\":\"Foo\",\"status\":\"busy\",\"statusmsg\":\"afk\"\x7d") =
      DispatchOutcome.typeInvoked ("STA")
        (some (Json.obj [(("character"), Json.str ("Foo")), (("status"), Json.str ("busy")),
          (("statusmsg"), Json.str ("afk"))])) := by
  exact ((c3_dispatch_validation_amended serverCommandRegistry
      ("STA \x7b\"character\":\"Foo\",\"status\":\"busy\",\"statusmsg\":\"afk\"\x7d")
      staSchema rfl).1
    (Json.obj [(("character"), Json.str ("Foo")), (("status"), Json.str ("busy")),
      (("statusmsg"), Json.str ("afk"))]) rfl rfl).2
    (Json.obj [(("character"), Json.str ("Foo")), (("status"), Json.str ("busy")),
      (("statusmsg"), Json.str ("afk"))]) rfl

/-- C8 counterexample: the frame `ZZZ hello` has an unknown verb, but its
argument text `hello` is not JSON, so `JSON.parse` throws before the
registry lookup and NO listener (generic or typed) is invoked — refuting
the claim that every unknown-verb frame reaches the generic listeners. -/
theorem c8_counterexample :
    alookup serverCommandRegistry (frameCommand ("ZZZ hello")) = none ∧
    dispatchFrame serverCommandRegistry ("ZZZ hello") = DispatchOutcome.droppedException :=
  ⟨rfl, rfl⟩

/-- C8 (amended): for a frame whose verb is unknown to the registry, if the
argument text is empty or parses as JSON the dispatcher invokes exactly the
generic listeners, passing the raw frame string with no validation; if the
argument text is present but not JSON, the parse exception is caught and no
listener of either kind runs. -/
theorem c8_unknown_verb_amended (registry : List (String × Schema)) (dataString : String)
    (hunknown : alookup registry (frameCommand dataString) = none) :
    (∀ arg, frameArgument dataString = Except.ok arg →
      dispatchFrame registry dataString = DispatchOutcome.genericInvoked dataString) ∧
    (frameArgument dataString = Except.error () →
      dispatchFrame registry dataString = DispatchOutcome.droppedException) := by
  constructor
  · intro arg harg
    simp only [dispatchFrame, harg, hunknown]
  · intro herr
    simp only [dispatchFrame, herr]

/-- C8 witness: an unknown verb with no payload reaches the generic
listeners with the raw frame. -/
theorem c8_unknown_verb_amended_witness :
    dispatchFrame serverCommandRegistry ("ZZZ") = DispatchOutcome.genericInvoked ("ZZZ") := by
  exact (c8_unknown_verb_amended serverCommandRegistry ("ZZZ") rfl).1 none rfl

/-!
Helper lemmas for the user-directory update.
-/

theorem onChange_fields (users : List (String × UserRow)) (args : StatusEventArgs) (c : String)
    (hres : resolveCharacter args = c) (hc : ¬c = "") (base : UserRow)
    (hbase : (alookup users c).getD ⟨c, ("None"), ("online"), ("")⟩ = base) :
    ∃ row2, alookup (onChangeUpdateUserState users args) c = some row2 ∧
      row2.name = base.name ∧
      (strTruthy args.gender = false → row2.gender = base.gender) ∧
      (strTruthy args.status = false → row2.status = base.status) ∧
      (strTruthy args.statusmsg = false → row2.statusMessage = base.statusMessage) ∧
      (∀ g, args.gender = some g → ¬g = "" → row2.gender = g) ∧
      (∀ st, args.status = some st → ¬st = "" → row2.status = st) ∧
      (∀ sm, args.statusmsg = some sm → ¬sm = "" → row2.statusMessage = sm) := by
  have hbeq : (c == "") = false := by simpa using hc
  simp only [onChangeUpdateUserState, hres, hbeq, Bool.false_eq_true, if_false, hbase]
  refine ⟨_, alookup_setEntry_self users c _, ?_, ?_, ?_, ?_, ?_, ?_, ?_⟩
  · simp [apply_ite UserRow.name]
  · intro h
    simp [h, apply_ite UserRow.gender]
  · intro h
    simp [h, apply_ite UserRow.status]
  · intro h
    simp [h, apply_ite UserRow.statusMessage]
  · intro g hg hgne
    simp [hg, strTruthy, hgne, apply_ite UserRow.gender]
  · intro st hst hstne
    simp [hst, strTruthy, hstne, apply_ite UserRow.status]
  · intro sm hsm hsmne
    simp [hsm, strTruthy, hsmne, apply_ite UserRow.statusMessage]

theorem onChange_other_keys (users : List (String × UserRow)) (args : StatusEventArgs)
    (c : String) (hres : resolveCharacter args = c) (hc : ¬c = "") :
    ∀ d, ¬d = c → alookup (onChangeUpdateUserState users args) d = alookup users d := by
  intro d hd
  have hbeq : (c == "") = false := by simpa using hc
  simp only [onChangeUpdateUserState, hres, hbeq, Bool.false_eq_true, if_false]
  exact alookup_setEntry_other users c d _ hd

/-- C5: processing a status-changed or went-offline event for character C
first creates a missing directory entry with defaults
(gender "None", status "online", statusMessage "") and then overwrites only
the fields that are present and non-empty in the event, leaving absent or
empty fields (and every other character's entry) unchanged; in particular
the frames NLN followed by STA of scenario A yield the entry
("Foo", "None", "busy", "afk"). -/
theorem c5_user_directory_update :
    (processFrame serverCommandRegistry
        (processFrame serverCommandRegistry initialBotState
          ("NLN \x7b\"character\":\"Foo\"\x7d"))
        ("STA \x7b\"character\":\"Foo\",\"status\":\"busy\",\"statusmsg\":\"afk\"\x7d")).users =
      [(("Foo"), ⟨("Foo"), ("None"), ("busy"), ("afk")⟩)] ∧
    (∀ (users : List (String × UserRow)) (args : StatusEventArgs) (c : String),
      resolveCharacter args = c → ¬c = "" →
      (∀ row, alookup users c = some row →
        ∃ row2, alookup (onChangeUpdateUserState users args) c = some row2 ∧
          row2.name = row.name ∧
          (strTruthy args.gender = false → row2.gender = row.gender) ∧
          (strTruthy args.status = false → row2.status = row.status) ∧
          (strTruthy args.statusmsg = false → row2.statusMessage = row.statusMessage) ∧
          (∀ g, args.gender = some g → ¬g = "" → row2.gender = g) ∧
          (∀ st, args.status = some st → ¬st = "" → row2.status = st) ∧
          (∀ sm, args.statusmsg = some sm → ¬sm = "" → row2.statusMessage = sm)) ∧
      (alookup users c = none →
        ∃ row2, alookup (onChangeUpdateUserState users args) c = some row2 ∧
          row2.name = c ∧
          (strTruthy args.gender = false → row2.gender = ("None")) ∧
          (strTruthy args.status = false → row2.status = ("online")) ∧
          (strTruthy args.statusmsg = false → row2.statusMessage = ("")) ∧
          (∀ g, args.gender = some g → ¬g = "" → row2.gender = g) ∧
          (∀ st, args.status = some st → ¬st = "" → row2.status = st) ∧
          (∀ sm, args.statusmsg = some sm → ¬sm = "" → row2.statusMessage = sm)) ∧
      (∀ d, ¬d = c → alookup (onChangeUpdateUserState users args) d = alookup users d)) := by
  constructor
  · rfl
  · intro users args c hres hc
    refine ⟨?_, ?_, onChange_other_keys users args c hres hc⟩
    · intro row hrow
      have hbase : (alookup users c).getD ⟨c, ("None"), ("online"), ("")⟩ = row := by
        rw [hrow]
        rfl
      exact onChange_fields users args c hres hc row hbase
    · intro hnone
      have hbase :
          (alookup users c).getD ⟨c, ("None"), ("online"), ("")⟩ =
            (⟨c, ("None"), ("online"), ("")⟩ : UserRow) := by
        rw [hnone]
        rfl
      exact onChange_fields users args c hres hc _ hbase

/-- C5 witness: the scenario-A STA event applied to an empty directory. -/
theorem c5_user_directory_update_witness :
    ∃ row2,
      alookup
        (onChangeUpdateUserState []
          ⟨none, some ("Foo"), none, some ("busy"), some ("afk")⟩) ("Foo") = some row2 ∧
      row2.gender = ("None") ∧ row2.status = ("busy") ∧ row2.statusMessage = ("afk") := by
  have h := (c5_user_directory_update.2 []
    ⟨none, some ("Foo"), none, some ("busy"), some ("afk")⟩ ("Foo") rfl (by decide)).2.1 rfl
  rcases h with ⟨row2, hlk, _, hg, _, _, _, hst, hsm⟩
  exact ⟨row2, hlk, hg rfl, hst ("busy") rfl (by decide), hsm ("afk") rfl (by decide)⟩
